import Mathlib

/-!
# MCPStack core — shallow embedding

A shallow embedding of the MCPStack pipeline core (`src/MCPStack/stack.py`,
`src/MCPStack/core/config.py`, `src/MCPStack/core/tool/base.py`,
`src/MCPStack/core/utils/exceptions.py`) in Lean 4, together with theorems
settling the specification claims about pipeline composition, the build
lifecycle, configuration resolution, and save/load round-trips.

Conventions of the embedding:
* Python dictionaries that matter to the claims (environment maps, the
  registries) are modelled as association lists with first-match lookup.
* Raising an exception is modelled with `Except`; a method that mutates
  `self` is modelled as a function returning the post-state (for `build`,
  which mutates the receiver, the post-state is returned alongside the
  `Except` outcome so that partial mutation on failure is observable).
* The fuzzy matcher (`thefuzz.process.extractOne`) is an external
  collaborator (spec section 1); its response is passed in as an
  `Option (String x Nat)` oracle value, exactly the shape the code consumes.
* The serving runtime (`FastMCP`) is a collaborator; it is modelled by the
  two things the core reads: the registered actions and the outcome of its
  blocking `run` call.
-/

/-- The distinct error classes of `core/utils/exceptions.py`. -/
inductive ErrorKind where
  | config
  | validation
  | build
  | initialization
  | preset
  /-- An exception that is not an `MCPStackError` (e.g. raised by a tool
  hook or by the serving runtime). -/
  | runtime
  deriving DecidableEq, Repr

/-- `MCPStackError` from `core/utils/exceptions.py`: a kind (the subclass),
a message and optional details. -/
structure MCPStackError where
  kind : ErrorKind
  message : String
  details : Option String
  deriving DecidableEq, Repr

/-- `MCPStackError.__str__`. -/
def MCPStackError.toStr (e : MCPStackError) : String :=
  match e.details with
  | some d => "MCPStack Error: " ++ e.message ++ "\nDetails: " ++ d
  | none => "MCPStack Error: " ++ e.message

instance {ε α : Type} [DecidableEq ε] [DecidableEq α] : DecidableEq (Except ε α)
  | Except.ok a, Except.ok b =>
    if h : a = b then isTrue (by rw [h]) else isFalse (by simp [h])
  | Except.ok _, Except.error _ => isFalse (by simp)
  | Except.error _, Except.ok _ => isFalse (by simp)
  | Except.error e, Except.error f =>
    if h : e = f then isTrue (by rw [h]) else isFalse (by simp [h])

/-- First-match lookup in an association list (Python `dict` access for the
maps the claims touch). -/
def alookup {α : Type} : List (String × α) → String → Option α
  | [], _ => none
  | (k, v) :: rest, key => if k = key then some v else alookup rest key

/-- Python `d[k] = v`: replace the value at the first occurrence of the key,
or append the binding if the key is absent. -/
def setVal : List (String × String) → String → String → List (String × String)
  | [], k, v => [(k, v)]
  | (k0, v0) :: rest, k, v =>
    if k0 = k then (k0, v) :: rest else (k0, v0) :: setVal rest k v

/-- `StackConfig` (`core/config.py`): log verbosity and the explicit
environment-variable override map.  The derived filesystem paths and the
logging side effects of `_apply_config` play no part in any claim and are
not modelled. -/
structure StackConfig where
  log_level : String
  env_vars : List (String × String)
  deriving DecidableEq, Repr

/-- `StackConfig.get_env_var`: override map first, then the process
environment (passed in as `osEnv`), then the default; raise `ConfigError`
when nothing resolved and `raise_if_missing`; otherwise `value or ""`. -/
def StackConfig.get_env_var (cfg : StackConfig) (osEnv : List (String × String))
    (key : String) (default : Option String) (raise_if_missing : Bool) :
    Except MCPStackError String :=
  let value : Option String :=
    match alookup cfg.env_vars key with
    | some v => some v
    | none =>
      match alookup osEnv key with
      | some v => some v
      | none => default
  match value, raise_if_missing with
  | none, true => Except.error ⟨ErrorKind.config, "Missing required env var: " ++ key, none⟩
  | _, _ => Except.ok (value.getD "")

/-- `Backend`: a sub-resource owned by a tool.  Only the teardown hook
matters to the claims: whether the backend exposes one (`hasattr`) and
whether calling it raises. -/
structure Backend where
  name : String
  hasTeardown : Bool
  teardownRaises : Bool
  deriving DecidableEq, Repr

/-- `BaseTool` (`core/tool/base.py`), reduced to the data the core reads:
the class name (source of the registry identifier), the serializable
parameter payload (`to_dict`), the declared required environment variables
with optional defaults, the owned backends, the contributed action names,
and whether the tool's `initialize` hook raises. -/
structure BaseTool where
  className : String
  params : List (String × String)
  required_env_vars : List (String × Option String)
  backends : List Backend
  actions : List String
  initRaises : Bool
  deriving DecidableEq, Repr

/-- The failure lines accumulated by `StackConfig.validate_for_tools`:
for every tool, for every declared required env var, the line
`f"{tool.__class__.__name__}: {e}"` for each `get_env_var` failure, with
`raise_if_missing = (default is None)`. -/
def envFailureLines (cfg : StackConfig) (osEnv : List (String × String))
    (tools : List BaseTool) : List String :=
  tools.foldl
    (fun acc tool =>
      tool.required_env_vars.foldl
        (fun acc2 kd =>
          match cfg.get_env_var osEnv kd.1 kd.2 kd.2.isNone with
          | Except.ok _ => acc2
          | Except.error e => acc2 ++ [tool.className ++ ": " ++ e.toStr])
        acc)
    []

/-- `StackConfig.validate_for_tools`: collect every failure across all
tools, then raise a single `ConfigError` joining them, or succeed. -/
def StackConfig.validate_for_tools (cfg : StackConfig)
    (osEnv : List (String × String)) (tools : List BaseTool) :
    Except MCPStackError Unit :=
  let errors := envFailureLines cfg osEnv tools
  if errors.isEmpty then Except.ok ()
  else Except.error ⟨ErrorKind.config, String.intercalate "\n" errors, none⟩

/-- The prefixed key of `merge_env`:
`f"{prefix}{key}" if prefix else key`. -/
def prefKey (pre k : String) : String :=
  if pre = "" then k else pre ++ k

/-- `StackConfig.merge_env`: for each entry in insertion order, compute the
prefixed key; a key already present with a different value raises
`ConfigError` naming both values, otherwise the key is set. -/
def StackConfig.merge_env (cfg : StackConfig) :
    List (String × String) → String → Except MCPStackError StackConfig
  | [], _ => Except.ok cfg
  | (k, v) :: rest, pre =>
    match alookup cfg.env_vars (prefKey pre k) with
    | some old =>
      if old ≠ v then
        Except.error ⟨ErrorKind.config,
          "Env conflict: " ++ prefKey pre k ++ " (" ++ old ++ " vs " ++ v ++ ")", none⟩
      else
        StackConfig.merge_env ⟨cfg.log_level, setVal cfg.env_vars (prefKey pre k) v⟩ rest pre
    | none =>
      StackConfig.merge_env ⟨cfg.log_level, setVal cfg.env_vars (prefKey pre k) v⟩ rest pre

/-- The serving-runtime collaborator (`FastMCP`), reduced to what the core
observes: its name, the actions registered so far, and the outcome of its
blocking `run()` (`none` = returns normally, `some msg` = raises). -/
structure FastMCP where
  name : String
  registered : List String
  serveRaises : Option String
  deriving DecidableEq, Repr

/-- `MCPStackCore.__init__` state: configuration, ordered tool list,
optional serving-runtime handle, and the `_built` flag. -/
structure MCPStackCore where
  config : StackConfig
  tools : List BaseTool
  mcp : Option FastMCP
  _built : Bool
  deriving DecidableEq, Repr

/-- `MCPStackCore.with_tool`: a fresh core with the same config and mcp,
the tool appended, and `_built = False`. -/
def MCPStackCore.with_tool (p : MCPStackCore) (tool : BaseTool) : MCPStackCore :=
  ⟨p.config, p.tools ++ [tool], p.mcp, false⟩

/-- `MCPStackCore.with_tools`. -/
def MCPStackCore.with_tools (p : MCPStackCore) (tools : List BaseTool) : MCPStackCore :=
  ⟨p.config, p.tools ++ tools, p.mcp, false⟩

/-- A preset: a factory producing a pre-composed pipeline from a
configuration (`core/preset/base.py`). -/
structure Preset where
  create : StackConfig → MCPStackCore

/-- Wrap a string in single quotes (code point 39), as the f-strings of
`with_preset` and `_generate_config` do around the suggested name. -/
def squote (s : String) : String :=
  String.singleton (Char.ofNat 39) ++ s ++ String.singleton (Char.ofNat 39)

/-- The suggestion string built from the fuzzy matcher's response
`process.extractOne(name, available) or (None, 0)`: present only when the
score is at least 80. -/
def mkSuggestion (fz : Option (String × Nat)) : String :=
  match fz with
  | some (best, score) =>
    if score ≥ 80 then " Did you mean " ++ squote best ++ "?" else ""
  | none => ""

/-- `MCPStackCore.with_preset`: resolve the preset name (raising
`PresetError` with at most a fuzzy suggestion when absent), call its
factory with `kwargs.pop("config", self.config)`, and return a fresh core
holding the factory result's config, the receiver's tools followed by the
preset's, the factory result's mcp (falling back to the receiver's), and
`_built = False`. -/
def MCPStackCore.with_preset (p : MCPStackCore) (presets : List (String × Preset))
    (fz : Option (String × Nat)) (preset_name : String)
    (configArg : Option StackConfig) : Except MCPStackError MCPStackCore :=
  match alookup presets preset_name with
  | none =>
    Except.error ⟨ErrorKind.preset, "Unknown preset: " ++ preset_name ++ "." ++ mkSuggestion fz, none⟩
  | some pc =>
    let config := configArg.getD p.config
    let preset_stack := pc.create config
    Except.ok ⟨preset_stack.config, p.tools ++ preset_stack.tools,
      (match preset_stack.mcp with | some m => some m | none => p.mcp), false⟩

/-- `MCPStackCore._validate`: reject an empty tool list, then validate the
configuration against every tool's required env vars. -/
def MCPStackCore._validate (p : MCPStackCore) (osEnv : List (String × String)) :
    Except MCPStackError Unit :=
  if p.tools.isEmpty then
    Except.error ⟨ErrorKind.validation, "At least one tool must be added.", none⟩
  else p.config.validate_for_tools osEnv p.tools

/-- A tool's `initialize()` hook (backend hooks plus `_initialize`),
collapsed to its observable outcome: raises or returns. -/
def initTool (t : BaseTool) : Except MCPStackError Unit :=
  if t.initRaises then
    Except.error ⟨ErrorKind.runtime, "initialization failed: " ++ t.className, none⟩
  else Except.ok ()

/-- `MCPStackCore._initialize_tools`: call each tool's hook in sequence
order; the first exception propagates. -/
def initTools : List BaseTool → Except MCPStackError Unit
  | [] => Except.ok ()
  | t :: rest =>
    match initTool t with
    | Except.error e => Except.error e
    | Except.ok () => initTools rest

/-- `MCPStackCore._register_actions`: collect every tool's actions in
sequence order and register each with the runtime handle. -/
def registerActions (p : MCPStackCore) : MCPStackCore :=
  let acts := p.tools.flatMap (fun t => t.actions)
  { p with mcp := p.mcp.map (fun m => { m with registered := m.registered ++ acts }) }

/-- An output-format generator (`core/mcp_config_generator`): a function of
the built pipeline producing an artifact (or raising). -/
structure Generator where
  generate : MCPStackCore → Except MCPStackError String

/-- `MCPStackCore._generate_config`: look the format up in the generator
registry (raising `ValidationError` with at most a fuzzy suggestion when
absent) and delegate. -/
def generateConfig (p : MCPStackCore) (gens : List (String × Generator))
    (fz : Option (String × Nat)) (fmt : String) : Except MCPStackError String :=
  match alookup gens fmt with
  | none =>
    Except.error ⟨ErrorKind.validation, "Unknown config type: " ++ fmt ++ "." ++ mkSuggestion fz, none⟩
  | some g => g.generate p

/-- The receiver's state right after `_initialize_mcp`: the runtime handle
is present (the default `FastMCP("mcpstack")` is created when absent);
tools, config and `_built` are untouched. -/
def afterInitMcp (p : MCPStackCore) : MCPStackCore :=
  ⟨p.config, p.tools, some (p.mcp.getD ⟨"mcpstack", [], none⟩), p._built⟩

/-- The receiver's state after build steps (c)-(f): `_initialize_mcp`,
`_register_actions` (every tool's actions appended to the handle in
sequence order) and `self._built = True`. -/
def afterBuildSteps (p : MCPStackCore) : MCPStackCore :=
  { registerActions (afterInitMcp p) with _built := true }

/-- `MCPStackCore.build`: `_validate`; `_initialize_mcp` (create the default
runtime handle when absent); `_initialize_tools` (over `self.tools`, which
the mcp step did not change); `_register_actions`; set `_built = True`;
then dispatch to the generator.  The returned pair is (post-state of the
receiver, outcome): `build` mutates `self` in the source, so mutation
already performed when an exception is raised is visible in the returned
post-state. -/
def MCPStackCore.build (p : MCPStackCore) (osEnv : List (String × String))
    (gens : List (String × Generator)) (fz : Option (String × Nat)) (fmt : String) :
    MCPStackCore × Except MCPStackError String :=
  match p._validate osEnv with
  | Except.error e => (p, Except.error e)
  | Except.ok _ =>
    match initTools p.tools with
    | Except.error e => (afterInitMcp p, Except.error e)
    | Except.ok _ =>
      match generateConfig (afterBuildSteps p) gens fz fmt with
      | Except.error e => (afterBuildSteps p, Except.error e)
      | Except.ok art => (afterBuildSteps p, Except.ok art)

/-- One backend teardown attempt inside `_teardown_tools`: the trace of the
invocation (made exactly when the backend exposes the hook) together with
its outcome. -/
def runBackendTeardown (b : Backend) : List String × Except String Unit :=
  if b.hasTeardown then
    ([b.name], if b.teardownRaises then Except.error b.name else Except.ok ())
  else ([], Except.ok ())

/-- `MCPStackCore._teardown_tools`: for every tool, for every backend,
attempt teardown inside `try ... except Exception: pass` — the outcome is
discarded, so a raising backend never stops the loop.  Returns the trace of
backends on which teardown was invoked, in order. -/
def teardownTools (tools : List BaseTool) : List String :=
  tools.foldl
    (fun acc tool =>
      tool.backends.foldl
        (fun acc2 b =>
          let r := runBackendTeardown b
          acc2 ++ r.1)
        acc)
    []

/-- The serving runtime's own outcome, as `run()` surfaces it. -/
def serveOutcome (m : FastMCP) : Except MCPStackError Unit :=
  match m.serveRaises with
  | none => Except.ok ()
  | some msg => Except.error ⟨ErrorKind.runtime, msg, none⟩

/-- `MCPStackCore.run`: reject when not built (`BuildError`) or when no
runtime handle (`InitializationError`); otherwise delegate to the blocking
serve call with `_teardown_tools` in a `finally`.  Returns run's own
outcome together with the teardown invocation trace. -/
def MCPStackCore.run (p : MCPStackCore) : Except MCPStackError Unit × List String :=
  if p._built = false then
    (Except.error ⟨ErrorKind.build, "Call .build() before .run()", none⟩, [])
  else
    match p.mcp with
    | none => (Except.error ⟨ErrorKind.initialization, "MCP not initialized", none⟩, [])
    | some m => (serveOutcome m, teardownTools p.tools)

/-- Helper of `to_snake_case`: every character after the first is lowered,
with an underscore inserted before each uppercase letter. -/
def snakeTail : List Char → List Char
  | [] => []
  | c :: rest =>
    (if c.isUpper then [Char.ofNat 95, c.toLower] else [c.toLower]) ++ snakeTail rest

/-- `to_snake_case` inside `MCPStackCore.save`:
`re.sub(r"(?<!^)(?=[A-Z])", "_", name).lower()`. -/
def to_snake_case (name : String) : String :=
  match name.data with
  | [] => ""
  | c :: rest => String.mk (c.toLower :: snakeTail rest)

/-- One entry of the persisted document's `tools` array. -/
structure ToolDoc where
  tool_type : String
  params : List (String × String)
  deriving DecidableEq, Repr

/-- The persisted pipeline document `{config: ..., tools: [...]}` written by
`save` and read by `load` (the JSON file layer is abstracted to the
document value). -/
structure PipelineDoc where
  config : StackConfig
  tools : List ToolDoc
  deriving DecidableEq, Repr

/-- `MCPStackCore.save`: reject when not built (`BuildError`); otherwise
emit the document holding `config.to_dict()` and, per tool in order, the
snake-cased class name and `tool.to_dict()`. -/
def MCPStackCore.save (p : MCPStackCore) : Except MCPStackError PipelineDoc :=
  if p._built = false then
    Except.error ⟨ErrorKind.build, "Call .build() before .save()", none⟩
  else
    Except.ok ⟨⟨p.config.log_level, p.config.env_vars⟩,
      p.tools.map (fun t => ⟨to_snake_case t.className, t.params⟩)⟩

/-- The tool registry `ALL_TOOLS`: identifier to deserialization factory
(`from_dict`). -/
abbrev ToolRegistry := List (String × (List (String × String) → BaseTool))

/-- The per-tool loop of `load`: resolve each document entry in the tool
registry (raising `ValidationError` on an unknown type identifier) and
append the rebuilt tool via `with_tool`. -/
def loadTools (registry : ToolRegistry) (inst : MCPStackCore) :
    List ToolDoc → Except MCPStackError MCPStackCore
  | [] => Except.ok inst
  | td :: rest =>
    match alookup registry td.tool_type with
    | none => Except.error ⟨ErrorKind.validation, "Unknown tool type: " ++ td.tool_type, none⟩
    | some f => loadTools registry (inst.with_tool (f td.params)) rest

/-- A tool's `post_load()` hook: `_post_load` (a no-op by default) followed
by `initialize()`, so it raises exactly when the initialize hook raises. -/
def postLoadTool (t : BaseTool) : Except MCPStackError Unit :=
  initTool t

/-- The loop of `MCPStackCore._post_load` over the tools. -/
def postLoadAll : List BaseTool → Except MCPStackError Unit
  | [] => Except.ok ()
  | t :: rest =>
    match postLoadTool t with
    | Except.error e => Except.error e
    | Except.ok () => postLoadAll rest


/-- The backends on which `_teardown_tools` invokes teardown: every backend
exposing the hook, of every tool, in order. -/
def allTeardownNames : List BaseTool → List String
  | [] => []
  | t :: rest =>
    (t.backends.filter (fun b => b.hasTeardown)).map (fun b => b.name) ++ allTeardownNames rest

/-- Concrete instance of C2: the empty pipeline. -/
def emptyCore : MCPStackCore := ⟨⟨"INFO", []⟩, [], none, false⟩

/-- A tool with no required env vars, one backend, one action, whose hooks
do not raise. -/
def toolPlain : BaseTool := ⟨"HelloWorld", [("greeting", "hi")], [], [⟨"db", true, false⟩], ["say_hello"], false⟩

/-- A runtime handle whose serve call returns normally. -/
def mcp0 : FastMCP := ⟨"mcpstack", [], none⟩

/-- A generator that succeeds with a fixed artifact. -/
def genOK : Generator := ⟨fun _ => Except.ok "artifact"⟩

/-- A pipeline already in the built state. -/
def builtCore : MCPStackCore := ⟨⟨"INFO", []⟩, [toolPlain], some mcp0, true⟩

/-- Receiver configuration for the C1 counterexample. -/
def cfgA : StackConfig := ⟨"INFO", []⟩

/-- A different configuration bundled by a preset. -/
def cfgB : StackConfig := ⟨"DEBUG", [("X", "1")]⟩

/-- A preset whose factory ignores the configuration it is handed and
returns a pipeline carrying its own bundled configuration — permitted by
the preset contract (a preset is a named bundle of tools plus config). -/
def presetSwap : Preset := ⟨fun _ => ⟨cfgB, [], none, false⟩⟩

/-- An empty receiver pipeline holding `cfgA`. -/
def recvA : MCPStackCore := ⟨cfgA, [], none, false⟩

/-- A preset that keeps the configuration it is handed and contributes one
tool. -/
def presetKeep : Preset := ⟨fun c => ⟨c, [toolPlain], none, false⟩⟩

/-- A preset registry with two entries, for the C9 counterexample. -/
def presetsAB : List (String × Preset) :=
  [("alpha", ⟨fun c => ⟨c, [], none, false⟩⟩), ("beta", ⟨fun c => ⟨c, [], none, false⟩⟩)]

/-- The message `with_preset` produces for the unknown name
"unknown_preset" against `presetsAB`, as a function of the fuzzy matcher's
response. -/
def unknownPresetMsg (fz : Option (String × Nat)) : String :=
  match recvA.with_preset presetsAB fz "unknown_preset" none with
  | Except.error e => e.message
  | Except.ok _ => ""

/-- Replace every backend's teardown behavior by a non-raising one,
keeping which backends exist and which expose the hook. -/
def clearTeardownRaises (t : BaseTool) : BaseTool :=
  { t with backends := t.backends.map (fun b => { b with teardownRaises := false }) }

/-- Tools for the C5 witness: the first tool's backend raises on teardown,
the second's does not. -/
def toolRaisingTeardown : BaseTool := ⟨"ToolX", [], [], [⟨"bX", true, true⟩], [], false⟩

/-- Second witness tool, with a well-behaved backend. -/
def toolQuietTeardown : BaseTool := ⟨"ToolY", [], [], [⟨"bY", true, false⟩], [], false⟩

/-- Built pipeline for the C5 witness. -/
def runCore : MCPStackCore :=
  ⟨⟨"INFO", []⟩, [toolRaisingTeardown, toolQuietTeardown], some mcp0, true⟩

/-- The failure lines one tool contributes inside `validate_for_tools`
(`cn` is the tool's class name). -/
def toolFailLines (cfg : StackConfig) (osEnv : List (String × String)) (cn : String) :
    List (String × Option String) → List String
  | [] => []
  | kd :: rest =>
    match cfg.get_env_var osEnv kd.1 kd.2 kd.2.isNone with
    | Except.ok _ => toolFailLines cfg osEnv cn rest
    | Except.error e => (cn ++ ": " ++ e.toStr) :: toolFailLines cfg osEnv cn rest

/-- The failure lines of all tools, concatenated in tool order. -/
def allFailLines (cfg : StackConfig) (osEnv : List (String × String)) :
    List BaseTool → List String
  | [] => []
  | t :: rest =>
    toolFailLines cfg osEnv t.className t.required_env_vars ++ allFailLines cfg osEnv rest

/-- Witness tools for C6: each missing a different required variable. -/
def toolMissA : BaseTool := ⟨"ToolA", [], [("K1", none)], [], [], false⟩

/-- Second witness tool for C6. -/
def toolMissB : BaseTool := ⟨"ToolB", [], [("K2", none)], [], [], false⟩

/-- The tools `load` rebuilds from a document via the registry, in
document order. -/
def rebuiltTools (registry : ToolRegistry) : List ToolDoc → List BaseTool
  | [] => []
  | td :: rest =>
    match alookup registry td.tool_type with
    | none => rebuiltTools registry rest
    | some f => f td.params :: rebuiltTools registry rest

/-- A tool for the C3 witness, requiring `API_KEY` with no default. -/
def toolRT : BaseTool :=
  ⟨"HelloWorld", [("greeting", "hi")], [("API_KEY", none)], [], ["say_hello"], false⟩

/-- Tool registry for the C3 witness: `hello_world` maps to a factory
rebuilding the tool from its payload. -/
def registryRT : ToolRegistry :=
  [("hello_world", fun ps => ⟨"HelloWorld", ps, [("API_KEY", none)], [], ["say_hello"], false⟩)]

/-- A built pipeline for the C3 witness, whose configuration would fail
validation (its required `API_KEY` resolves nowhere). -/
def builtRT : MCPStackCore := ⟨⟨"INFO", []⟩, [toolRT], none, true⟩

/-- `MCPStackCore.load`: rebuild the configuration via `from_dict`, rebuild
each tool via the registry appending with `with_tool` in document order,
run `_post_load` (each tool's `post_load`, re-register actions only if a
runtime handle exists) and mark the result built — with no
environment-variable validation step. -/
def MCPStackCore.load (registry : ToolRegistry) (doc : PipelineDoc) :
    Except MCPStackError MCPStackCore :=
  let config : StackConfig := ⟨doc.config.log_level, doc.config.env_vars⟩
  match loadTools registry ⟨config, [], none, false⟩ doc.tools with
  | Except.error e => Except.error e
  | Except.ok inst =>
    match postLoadAll inst.tools with
    | Except.error e => Except.error e
    | Except.ok () =>
      let inst2 := if inst.mcp.isSome then registerActions inst else inst
      Except.ok { inst2 with _built := true }


theorem alookup_setVal_self (l : List (String × String)) (k v : String) :
    alookup (setVal l k v) k = some v := by
  induction l with
  | nil => simp [setVal, alookup]
  | cons kv rest ih =>
    obtain ⟨k0, v0⟩ := kv
    by_cases h : k0 = k
    · simp [setVal, alookup, h]
    · simp [setVal, alookup, h, ih]

theorem alookup_setVal_ne (l : List (String × String)) (k v k' : String) (h : k' ≠ k) :
    alookup (setVal l k v) k' = alookup l k' := by
  induction l with
  | nil =>
    simp only [setVal, alookup]
    rw [if_neg (Ne.symm h)]
  | cons kv rest ih =>
    obtain ⟨k0, v0⟩ := kv
    by_cases h0 : k0 = k
    · subst h0
      simp only [setVal, if_pos rfl, alookup]
      rw [if_neg (Ne.symm h), if_neg (Ne.symm h)]
    · simp only [setVal, if_neg h0, alookup]
      by_cases h1 : k0 = k'
      · simp [h1]
      · simp [h1, ih]

theorem setVal_id (l : List (String × String)) (k v : String)
    (h : alookup l k = some v) : setVal l k v = l := by
  induction l with
  | nil => simp [alookup] at h
  | cons kv rest ih =>
    obtain ⟨k0, v0⟩ := kv
    by_cases h0 : k0 = k
    · simp only [alookup, if_pos h0] at h
      obtain rfl : v0 = v := by injection h
      simp [setVal, h0]
    · simp only [alookup, if_neg h0] at h
      simp [setVal, h0, ih h]

theorem teardown_inner_foldl (bs : List Backend) (acc : List String) :
    bs.foldl (fun acc2 b => acc2 ++ (runBackendTeardown b).1) acc
      = acc ++ (bs.filter (fun b => b.hasTeardown)).map (fun b => b.name) := by
  induction bs generalizing acc with
  | nil => simp
  | cons b rest ih =>
    rw [List.foldl_cons, ih]
    by_cases hb : b.hasTeardown <;>
      simp [runBackendTeardown, hb, List.filter_cons]

theorem teardown_outer_foldl (ts : List BaseTool) (acc : List String) :
    ts.foldl
        (fun acc tool =>
          tool.backends.foldl (fun acc2 b =>
            let r := runBackendTeardown b
            acc2 ++ r.1) acc)
        acc
      = acc ++ allTeardownNames ts := by
  induction ts generalizing acc with
  | nil => simp [allTeardownNames]
  | cons t rest ih =>
    simp only [List.foldl_cons]
    rw [show (t.backends.foldl (fun acc2 b =>
          let r := runBackendTeardown b
          acc2 ++ r.1) acc) =
        acc ++ (t.backends.filter (fun b => b.hasTeardown)).map (fun b => b.name) from
      teardown_inner_foldl t.backends acc]
    rw [ih]
    simp [allTeardownNames]

theorem teardownTools_eq (ts : List BaseTool) :
    teardownTools ts = allTeardownNames ts := by
  have h := teardown_outer_foldl ts []
  simpa [teardownTools] using h

theorem initTools_ok (ts : List BaseTool) (h : ∀ t ∈ ts, t.initRaises = false) :
    initTools ts = Except.ok () := by
  induction ts with
  | nil => rfl
  | cons t rest ih =>
    have ht : t.initRaises = false := h t (List.mem_cons_self t rest)
    simp only [initTools, initTool, ht, Bool.false_eq_true, if_false]
    exact ih (fun t' ht' => h t' (List.mem_cons_of_mem t ht'))

theorem build_of_validate_ok (p : MCPStackCore) (osEnv : List (String × String))
    (gens : List (String × Generator)) (fz : Option (String × Nat)) (fmt : String)
    (hv : p._validate osEnv = Except.ok ())
    (hi : ∀ t ∈ p.tools, t.initRaises = false) :
    p.build osEnv gens fz fmt
      = (afterBuildSteps p, generateConfig (afterBuildSteps p) gens fz fmt) := by
  unfold MCPStackCore.build
  rw [hv, initTools_ok p.tools hi]
  cases hg : generateConfig (afterBuildSteps p) gens fz fmt with
  | error e => rfl
  | ok art => rfl

/-- `build`'s outcome (second component) depends only on validation, tool
initialization and generator dispatch — in particular not on the
receiver's `_built` flag. -/
theorem build_snd_eq (p : MCPStackCore) (osEnv : List (String × String))
    (gens : List (String × Generator)) (fz : Option (String × Nat)) (fmt : String) :
    (p.build osEnv gens fz fmt).2 =
      match p._validate osEnv with
      | Except.error e => Except.error e
      | Except.ok _ =>
        match initTools p.tools with
        | Except.error e => Except.error e
        | Except.ok _ => generateConfig (afterBuildSteps p) gens fz fmt := by
  unfold MCPStackCore.build
  cases hval : p._validate osEnv with
  | error e => rfl
  | ok u =>
    cases hinit : initTools p.tools with
    | error e => rfl
    | ok u2 =>
      cases hg : generateConfig (afterBuildSteps p) gens fz fmt with
      | error e => rfl
      | ok art => rfl

/-- C2: `build()` on a pipeline with an empty tool sequence — for any
process environment, generator registry, fuzzy response and format —
returns the `ValidationError` raised by `_validate` step (a), and the
receiver's post-state is exactly the receiver: in particular its `_built`
flag is unchanged, so an unbuilt pipeline stays unbuilt. -/
theorem C2_build_empty_tools (p : MCPStackCore) (osEnv : List (String × String))
    (gens : List (String × Generator)) (fz : Option (String × Nat)) (fmt : String)
    (h : p.tools = []) :
    p.build osEnv gens fz fmt
      = (p, Except.error ⟨ErrorKind.validation, "At least one tool must be added.", none⟩) := by
  unfold MCPStackCore.build MCPStackCore._validate
  simp [h]

/-- Witness for C2 at the empty pipeline: build fails with the validation
error and the `_built` flag is still `false`. -/
theorem C2_witness :
    emptyCore.tools = [] ∧
    emptyCore.build [] [] none "fastmcp"
      = (emptyCore, Except.error ⟨ErrorKind.validation, "At least one tool must be added.", none⟩) ∧
    (emptyCore.build [] [] none "fastmcp").1._built = false := by
  refine ⟨rfl, C2_build_empty_tools emptyCore [] [] none "fastmcp" rfl, ?_⟩
  rw [C2_build_empty_tools emptyCore [] [] none "fastmcp" rfl]
  rfl

/-- Counterexample to C4: on a pipeline whose `_built` flag is `true`,
`build()` does not fail with a lifecycle-order error — there is no built
check in `build` — it re-executes the build steps and here returns the
generator's artifact. -/
theorem C4_counterexample :
    builtCore._built = true ∧
    (builtCore.build [] [("fastmcp", genOK)] none "fastmcp").2 = Except.ok "artifact" :=
  ⟨rfl, rfl⟩

/-- C4 (amended): `build()` performs no built-state check at all: its
outcome is identical whether the receiver's `_built` flag is `true` or
`false`, so invoking `build()` on an already-built pipeline re-executes the
build steps rather than failing with a lifecycle-order error. -/
theorem C4_build_ignores_built_flag (p : MCPStackCore) (osEnv : List (String × String))
    (gens : List (String × Generator)) (fz : Option (String × Nat)) (fmt : String)
    (b1 b2 : Bool) :
    (MCPStackCore.build { p with _built := b1 } osEnv gens fz fmt).2
      = (MCPStackCore.build { p with _built := b2 } osEnv gens fz fmt).2 := by
  rw [build_snd_eq, build_snd_eq]
  rfl

/-- C10: when `build()` fails at the generator-dispatch step (the format is
not in the generator registry, raising `ValidationError`), the `_built`
flag has already been set and remains `true`, so a subsequent `save()`
passes its built check and a subsequent `run()` proceeds to the serve call
(with mandatory teardown) instead of failing the built check. -/
theorem C10_generator_failure_leaves_built (p : MCPStackCore)
    (osEnv : List (String × String)) (gens : List (String × Generator))
    (fz : Option (String × Nat)) (fmt : String)
    (hv : p._validate osEnv = Except.ok ())
    (hi : ∀ t ∈ p.tools, t.initRaises = false)
    (hg : alookup gens fmt = none) :
    (p.build osEnv gens fz fmt).2
        = Except.error ⟨ErrorKind.validation,
            "Unknown config type: " ++ fmt ++ "." ++ mkSuggestion fz, none⟩ ∧
    ((p.build osEnv gens fz fmt).1)._built = true ∧
    (∃ doc, ((p.build osEnv gens fz fmt).1).save = Except.ok doc) ∧
    (∃ m, ((p.build osEnv gens fz fmt).1).mcp = some m ∧
      ((p.build osEnv gens fz fmt).1).run = (serveOutcome m, allTeardownNames p.tools)) := by
  rw [build_of_validate_ok p osEnv gens fz fmt hv hi]
  have hgen : generateConfig (afterBuildSteps p) gens fz fmt
      = Except.error ⟨ErrorKind.validation,
          "Unknown config type: " ++ fmt ++ "." ++ mkSuggestion fz, none⟩ := by
    unfold generateConfig
    rw [hg]
  refine ⟨hgen, rfl, ⟨_, rfl⟩, ?_⟩
  refine ⟨_, rfl, ?_⟩
  show (afterBuildSteps p).run = _
  unfold MCPStackCore.run
  have hb : (afterBuildSteps p)._built = true := rfl
  rw [hb]
  simp only [Bool.true_eq_false, if_false]
  have hm : (afterBuildSteps p).mcp = some
      { p.mcp.getD ⟨"mcpstack", [], none⟩ with
        registered := (p.mcp.getD ⟨"mcpstack", [], none⟩).registered
          ++ p.tools.flatMap (fun t => t.actions) } := rfl
  rw [hm]
  have ht : (afterBuildSteps p).tools = p.tools := rfl
  rw [ht, teardownTools_eq]
  rfl

/-- Witness for C10: a one-tool pipeline with an empty generator registry.
Build fails at dispatch, yet the post-state is built, `save` succeeds and
`run` reaches the serve call. -/
theorem C10_witness :
    (MCPStackCore._validate ⟨⟨"INFO", []⟩, [toolPlain], none, false⟩ [] = Except.ok ()) ∧
    (∀ t ∈ (⟨⟨"INFO", []⟩, [toolPlain], none, false⟩ : MCPStackCore).tools, t.initRaises = false) ∧
    (alookup ([] : List (String × Generator)) "bogus" = none) ∧
    ((MCPStackCore.build ⟨⟨"INFO", []⟩, [toolPlain], none, false⟩ [] [] none "bogus").2
        = Except.error ⟨ErrorKind.validation, "Unknown config type: bogus.", none⟩ ∧
      ((MCPStackCore.build ⟨⟨"INFO", []⟩, [toolPlain], none, false⟩ [] [] none "bogus").1)._built = true ∧
      (∃ doc, ((MCPStackCore.build ⟨⟨"INFO", []⟩, [toolPlain], none, false⟩ [] [] none "bogus").1).save
          = Except.ok doc) ∧
      (∃ m, ((MCPStackCore.build ⟨⟨"INFO", []⟩, [toolPlain], none, false⟩ [] [] none "bogus").1).mcp = some m ∧
        ((MCPStackCore.build ⟨⟨"INFO", []⟩, [toolPlain], none, false⟩ [] [] none "bogus").1).run
          = (serveOutcome m, allTeardownNames [toolPlain]))) := by
  refine ⟨rfl, ?_, rfl, ?_⟩
  · intro t ht
    simp only [List.mem_singleton] at ht
    rw [ht]
    rfl
  · exact C10_generator_failure_leaves_built ⟨⟨"INFO", []⟩, [toolPlain], none, false⟩ [] [] none "bogus"
      rfl
      (by
        intro t ht
        simp only [List.mem_singleton] at ht
        rw [ht]
        rfl)
      rfl

/-- Counterexample to C1: `with_preset` does not in general share the
receiver's configuration — the new pipeline carries
`preset_stack.config`, here `cfgB` while the receiver holds `cfgA`. -/
theorem C1_counterexample :
    recvA.with_preset [("swap", presetSwap)] none "swap" none
        = Except.ok ⟨cfgB, [], none, false⟩ ∧
    cfgB ≠ recvA.config :=
  ⟨rfl, by decide⟩

/-- C1 (amended): `with_tool` and `with_tools` return a new pipeline with
the receiver's configuration and runtime handle, the receiver's tool
sequence followed by the appended tool(s), and `_built = false` regardless
of the receiver's state; `with_preset` likewise appends the preset's tools
after the receiver's and returns `_built = false`, but the new pipeline
carries the preset factory's configuration (the receiver's exactly when
the factory preserves the configuration handed to it).  All three are
pure: the receiver value is not modified. -/
theorem C1_with_operations (p : MCPStackCore) (t : BaseTool) (ts : List BaseTool)
    (presets : List (String × Preset)) (fz : Option (String × Nat))
    (name : String) (configArg : Option StackConfig) (pc : Preset)
    (h : alookup presets name = some pc) :
    p.with_tool t = ⟨p.config, p.tools ++ [t], p.mcp, false⟩ ∧
    p.with_tools ts = ⟨p.config, p.tools ++ ts, p.mcp, false⟩ ∧
    p.with_preset presets fz name configArg
      = Except.ok ⟨(pc.create (configArg.getD p.config)).config,
          p.tools ++ (pc.create (configArg.getD p.config)).tools,
          (match (pc.create (configArg.getD p.config)).mcp with
            | some m => some m
            | none => p.mcp),
          false⟩ := by
  refine ⟨rfl, rfl, ?_⟩
  unfold MCPStackCore.with_preset
  rw [h]

/-- Witness for C1 at concrete values: appending via each operation from a
receiver holding `cfgA`. -/
theorem C1_witness :
    alookup [("keep", presetKeep)] "keep" = some presetKeep ∧
    recvA.with_tool toolPlain = ⟨cfgA, [toolPlain], none, false⟩ ∧
    recvA.with_tools [toolPlain, toolPlain] = ⟨cfgA, [toolPlain, toolPlain], none, false⟩ ∧
    recvA.with_preset [("keep", presetKeep)] none "keep" none
      = Except.ok ⟨cfgA, [toolPlain], none, false⟩ := by
  have h := C1_with_operations recvA toolPlain [toolPlain, toolPlain]
    [("keep", presetKeep)] none "keep" none presetKeep rfl
  exact ⟨rfl, h.1, h.2.1, h.2.2⟩

/-- Counterexample to C9: the `PresetError` message does not list the
registered preset names.  The registry holds "alpha" and "beta"; the fuzzy
collaborator returns `None` or a best match drawn from the registered
names with some score, and the suggestion changes only with the best match
and whether the score reaches 80 — the five responses below cover every
realizable response shape.  In every case at least one registered name is
absent from the message. -/
theorem C9_counterexample :
    (¬("alpha".data <:+: (unknownPresetMsg none).data ∧
       "beta".data <:+: (unknownPresetMsg none).data)) ∧
    (¬("alpha".data <:+: (unknownPresetMsg (some ("alpha", 100))).data ∧
       "beta".data <:+: (unknownPresetMsg (some ("alpha", 100))).data)) ∧
    (¬("alpha".data <:+: (unknownPresetMsg (some ("beta", 100))).data ∧
       "beta".data <:+: (unknownPresetMsg (some ("beta", 100))).data)) ∧
    (¬("alpha".data <:+: (unknownPresetMsg (some ("alpha", 0))).data ∧
       "beta".data <:+: (unknownPresetMsg (some ("alpha", 0))).data)) ∧
    (¬("alpha".data <:+: (unknownPresetMsg (some ("beta", 0))).data ∧
       "beta".data <:+: (unknownPresetMsg (some ("beta", 0))).data)) := by
  decide

/-- C9 (amended): `with_preset` on a name absent from the preset registry
fails with a `PresetError` whose message names the unknown preset and
carries at most a single fuzzy-match suggestion (present exactly when the
matcher's score reaches 80), not the full candidate list; the receiver
pipeline is unchanged (the operation returns only the error). -/
theorem C9_unknown_preset (p : MCPStackCore) (presets : List (String × Preset))
    (fz : Option (String × Nat)) (name : String) (configArg : Option StackConfig)
    (h : alookup presets name = none) :
    p.with_preset presets fz name configArg
        = Except.error ⟨ErrorKind.preset,
            "Unknown preset: " ++ name ++ "." ++ mkSuggestion fz, none⟩ ∧
    (mkSuggestion fz = "" ∨
      ∃ best score, fz = some (best, score) ∧ 80 ≤ score ∧
        mkSuggestion fz = " Did you mean " ++ squote best ++ "?") := by
  constructor
  · unfold MCPStackCore.with_preset
    rw [h]
  · cases fz with
    | none => exact Or.inl rfl
    | some bs =>
      obtain ⟨best, score⟩ := bs
      by_cases hs : 80 ≤ score
      · exact Or.inr ⟨best, score, rfl, hs, by simp [mkSuggestion, hs]⟩
      · exact Or.inl (by simp [mkSuggestion, hs])

/-- Witness for C9: the unknown name "unknown_preset" against the
two-entry registry, with the fuzzy collaborator returning no match. -/
theorem C9_witness :
    alookup presetsAB "unknown_preset" = none ∧
    recvA.with_preset presetsAB none "unknown_preset" none
      = Except.error ⟨ErrorKind.preset, "Unknown preset: unknown_preset.", none⟩ := by
  refine ⟨rfl, ?_⟩
  have h := C9_unknown_preset recvA presetsAB none "unknown_preset" none rfl
  exact h.1

theorem allTeardownNames_clear (ts : List BaseTool) :
    allTeardownNames (ts.map clearTeardownRaises) = allTeardownNames ts := by
  induction ts with
  | nil => rfl
  | cons t rest ih =>
    simp only [List.map_cons, allTeardownNames, ih, clearTeardownRaises]
    congr 1
    induction t.backends with
    | nil => rfl
    | cons b bs ihb =>
      by_cases hb : b.hasTeardown <;>
        simp [List.filter_cons, hb, ihb]

/-- C5: on a built pipeline with a runtime handle, `run()` returns the
serving runtime's own outcome paired with the teardown trace covering
every tool's every teardown-exposing backend, in order — the trace is
given by `allTeardownNames`, which does not depend on which backends
raise, so one raising backend never suppresses the others' teardown; and
the whole result is unchanged when every backend is replaced by a
non-raising one, so teardown failures never change `run()`'s outcome. -/
theorem C5_run_teardown (p : MCPStackCore) (m : FastMCP)
    (hb : p._built = true) (hm : p.mcp = some m) :
    p.run = (serveOutcome m, allTeardownNames p.tools) ∧
    MCPStackCore.run { p with tools := p.tools.map clearTeardownRaises }
      = (serveOutcome m, allTeardownNames p.tools) := by
  constructor
  · unfold MCPStackCore.run
    rw [hb, hm, teardownTools_eq]
    rfl
  · unfold MCPStackCore.run
    have hb2 : ({ p with tools := p.tools.map clearTeardownRaises } : MCPStackCore)._built = true := hb
    have hm2 : ({ p with tools := p.tools.map clearTeardownRaises } : MCPStackCore).mcp = some m := hm
    rw [hb2, hm2]
    simp only [teardownTools_eq]
    rw [allTeardownNames_clear]
    rfl

/-- Witness for C5: the first backend's raising teardown is invoked and so
is the second's, and `run` still returns the serving runtime's successful
outcome. -/
theorem C5_witness :
    runCore._built = true ∧ runCore.mcp = some mcp0 ∧
    runCore.run = (Except.ok (), ["bX", "bY"]) := by
  refine ⟨rfl, rfl, ?_⟩
  have h := (C5_run_teardown runCore mcp0 rfl rfl).1
  rw [h]
  rfl

/-- C7: `get_env_var` resolves the override map first, then the process
environment, then the default; it raises exactly when `raise_if_missing`
and nothing resolved at any of the three levels, the raised error being
the `ConfigError` naming the key; and when nothing resolves and the call
is not required, it returns the empty string (never an absent value). -/
theorem C7_get_env_var (cfg : StackConfig) (osEnv : List (String × String))
    (key : String) (default : Option String) (req : Bool) :
    ((∃ e, cfg.get_env_var osEnv key default req = Except.error e) ↔
      (req = true ∧ alookup cfg.env_vars key = none ∧ alookup osEnv key = none ∧
        default = none)) ∧
    (∀ e, cfg.get_env_var osEnv key default req = Except.error e →
      e = ⟨ErrorKind.config, "Missing required env var: " ++ key, none⟩) ∧
    (∀ v, alookup cfg.env_vars key = some v →
      cfg.get_env_var osEnv key default req = Except.ok v) ∧
    (alookup cfg.env_vars key = none → ∀ v, alookup osEnv key = some v →
      cfg.get_env_var osEnv key default req = Except.ok v) ∧
    (alookup cfg.env_vars key = none → alookup osEnv key = none →
      ∀ dv, default = some dv →
      cfg.get_env_var osEnv key default req = Except.ok dv) ∧
    (alookup cfg.env_vars key = none → alookup osEnv key = none → default = none →
      req = false → cfg.get_env_var osEnv key default req = Except.ok "") := by
  unfold StackConfig.get_env_var
  cases h1 : alookup cfg.env_vars key with
  | some v => cases req <;> simp [h1]
  | none =>
    cases h2 : alookup osEnv key with
    | some v => cases req <;> simp [h1, h2]
    | none =>
      cases hd : default with
      | some dv => cases req <;> simp [h1, h2, hd]
      | none => cases req <;> simp [h1, h2, hd]

/-- Witness for C7: each resolution level exercised at concrete inputs,
plus the required-and-missing failure. -/
theorem C7_witness :
    (StackConfig.get_env_var ⟨"INFO", [("K", "a")]⟩ [("K", "os")] "K" (some "d") true
      = Except.ok "a") ∧
    (StackConfig.get_env_var ⟨"INFO", []⟩ [("K", "os")] "K" (some "d") true
      = Except.ok "os") ∧
    (StackConfig.get_env_var ⟨"INFO", []⟩ [] "K" (some "d") true = Except.ok "d") ∧
    (StackConfig.get_env_var ⟨"INFO", []⟩ [] "K" none false = Except.ok "") ∧
    (StackConfig.get_env_var ⟨"INFO", []⟩ [] "K" none true
      = Except.error ⟨ErrorKind.config, "Missing required env var: K", none⟩) := by
  refine ⟨?_, ?_, ?_, ?_, ?_⟩
  · exact (C7_get_env_var ⟨"INFO", [("K", "a")]⟩ [("K", "os")] "K" (some "d") true).2.2.1 "a" rfl
  · exact (C7_get_env_var ⟨"INFO", []⟩ [("K", "os")] "K" (some "d") true).2.2.2.1 rfl "os" rfl
  · exact (C7_get_env_var ⟨"INFO", []⟩ [] "K" (some "d") true).2.2.2.2.1 rfl rfl "d" rfl
  · exact (C7_get_env_var ⟨"INFO", []⟩ [] "K" none false).2.2.2.2.2 rfl rfl rfl rfl
  · rfl

/-- `get_env_var` with `raise_if_missing = (default is None)` — the form
`validate_for_tools` uses — fails exactly when the default is absent and
neither the override map nor the process environment holds the key. -/
theorem gev_required_error_iff (cfg : StackConfig) (osEnv : List (String × String))
    (k : String) (d : Option String) :
    (∃ e, cfg.get_env_var osEnv k d d.isNone = Except.error e) ↔
      (d = none ∧ alookup cfg.env_vars k = none ∧ alookup osEnv k = none) := by
  unfold StackConfig.get_env_var
  cases h1 : alookup cfg.env_vars k with
  | some v => simp [h1]
  | none =>
    cases h2 : alookup osEnv k with
    | some v => simp [h1, h2]
    | none =>
      cases hd : d with
      | some dv => simp [hd]
      | none => simp [hd]

/-- The shape of the error raised in the failing case above. -/
theorem gev_required_error_eq (cfg : StackConfig) (osEnv : List (String × String))
    (k : String) (d : Option String)
    (h1 : d = none) (h2 : alookup cfg.env_vars k = none) (h3 : alookup osEnv k = none) :
    cfg.get_env_var osEnv k d d.isNone
      = Except.error ⟨ErrorKind.config, "Missing required env var: " ++ k, none⟩ := by
  subst h1
  unfold StackConfig.get_env_var
  simp [h2, h3]

theorem toolFail_inner_foldl (cfg : StackConfig) (osEnv : List (String × String))
    (cn : String) (reqs : List (String × Option String)) (acc : List String) :
    reqs.foldl
        (fun acc2 kd =>
          match cfg.get_env_var osEnv kd.1 kd.2 kd.2.isNone with
          | Except.ok _ => acc2
          | Except.error e => acc2 ++ [cn ++ ": " ++ e.toStr])
        acc
      = acc ++ toolFailLines cfg osEnv cn reqs := by
  induction reqs generalizing acc with
  | nil => simp [toolFailLines]
  | cons kd rest ih =>
    rw [List.foldl_cons]
    cases hg : cfg.get_env_var osEnv kd.1 kd.2 kd.2.isNone with
    | ok v => simp only [hg, ih, toolFailLines]
    | error e => simp [hg, ih, toolFailLines]

theorem envFailureLines_eq (cfg : StackConfig) (osEnv : List (String × String))
    (tools : List BaseTool) :
    envFailureLines cfg osEnv tools = allFailLines cfg osEnv tools := by
  have haux : ∀ (ts : List BaseTool) (acc : List String),
      ts.foldl
          (fun acc tool =>
            tool.required_env_vars.foldl
              (fun acc2 kd =>
                match cfg.get_env_var osEnv kd.1 kd.2 kd.2.isNone with
                | Except.ok _ => acc2
                | Except.error e => acc2 ++ [tool.className ++ ": " ++ e.toStr])
              acc)
          acc
        = acc ++ allFailLines cfg osEnv ts := by
    intro ts
    induction ts with
    | nil => intro acc; simp [allFailLines]
    | cons t rest ih =>
      intro acc
      rw [List.foldl_cons, toolFail_inner_foldl, ih, List.append_assoc]
      rfl
  have h := haux tools []
  simpa [envFailureLines] using h

theorem toolFailLines_eq_nil_iff (cfg : StackConfig) (osEnv : List (String × String))
    (cn : String) (reqs : List (String × Option String)) :
    toolFailLines cfg osEnv cn reqs = [] ↔
      ∀ kd ∈ reqs,
        ¬(kd.2 = none ∧ alookup cfg.env_vars kd.1 = none ∧ alookup osEnv kd.1 = none) := by
  induction reqs with
  | nil => simp [toolFailLines]
  | cons kd rest ih =>
    cases hg : cfg.get_env_var osEnv kd.1 kd.2 kd.2.isNone with
    | ok v =>
      simp only [toolFailLines, hg, ih, List.forall_mem_cons]
      constructor
      · intro h
        refine ⟨?_, h⟩
        intro hc
        obtain ⟨e, he⟩ := (gev_required_error_iff cfg osEnv kd.1 kd.2).2 hc
        rw [hg] at he
        exact Except.noConfusion he
      · intro h
        exact h.2
    | error e =>
      simp only [toolFailLines, hg]
      constructor
      · intro h
        exact absurd h (List.cons_ne_nil _ _)
      · intro h
        have hc := (gev_required_error_iff cfg osEnv kd.1 kd.2).1 ⟨e, hg⟩
        exact absurd hc (h kd (List.mem_cons_self kd rest))

theorem allFailLines_eq_nil_iff (cfg : StackConfig) (osEnv : List (String × String))
    (tools : List BaseTool) :
    allFailLines cfg osEnv tools = [] ↔
      ∀ t ∈ tools, toolFailLines cfg osEnv t.className t.required_env_vars = [] := by
  induction tools with
  | nil => simp [allFailLines]
  | cons t rest ih => simp [allFailLines, ih]

/-- The line a missing required variable contributes, rewritten from the
code's `className ++ ": " ++ str(e)` form. -/
theorem failLine_eq (cn k : String) :
    cn ++ ": " ++ MCPStackError.toStr ⟨ErrorKind.config, "Missing required env var: " ++ k, none⟩
      = cn ++ ": MCPStack Error: Missing required env var: " ++ k := by
  unfold MCPStackError.toStr
  simp only [String.append_assoc]
  congr 1

theorem mem_toolFailLines (cfg : StackConfig) (osEnv : List (String × String))
    (cn : String) (reqs : List (String × Option String)) (kd : String × Option String)
    (hkd : kd ∈ reqs) (h1 : kd.2 = none) (h2 : alookup cfg.env_vars kd.1 = none)
    (h3 : alookup osEnv kd.1 = none) :
    (cn ++ ": MCPStack Error: Missing required env var: " ++ kd.1)
      ∈ toolFailLines cfg osEnv cn reqs := by
  induction reqs with
  | nil => cases hkd
  | cons kd0 rest ih =>
    rcases List.mem_cons.1 hkd with h0 | h0
    · subst h0
      have heq := gev_required_error_eq cfg osEnv kd.1 kd.2 h1 h2 h3
      simp [toolFailLines, heq, failLine_eq]
    · have hrec := ih h0
      unfold toolFailLines
      cases hg : cfg.get_env_var osEnv kd0.1 kd0.2 kd0.2.isNone with
      | ok v => exact hrec
      | error e => exact List.mem_cons_of_mem _ hrec

theorem mem_allFailLines (cfg : StackConfig) (osEnv : List (String × String))
    (tools : List BaseTool) (t : BaseTool) (ht : t ∈ tools)
    (kd : String × Option String) (hkd : kd ∈ t.required_env_vars)
    (h1 : kd.2 = none) (h2 : alookup cfg.env_vars kd.1 = none)
    (h3 : alookup osEnv kd.1 = none) :
    (t.className ++ ": MCPStack Error: Missing required env var: " ++ kd.1)
      ∈ allFailLines cfg osEnv tools := by
  induction tools with
  | nil => cases ht
  | cons t0 rest ih =>
    rcases List.mem_cons.1 ht with h0 | h0
    · subst h0
      exact List.mem_append_left _ (mem_toolFailLines cfg osEnv t.className
        t.required_env_vars kd hkd h1 h2 h3)
    · exact List.mem_append_right _ (ih h0)

/-- C6: `validate_for_tools` succeeds exactly when no tool declares a
required variable (one whose default is absent) that resolves nowhere; on
failure it raises a single `ConfigError` whose message joins the collected
failure lines; and the collected lines contain the failure line of every
missing required variable of every tool — aggregation across all tools
rather than failing fast on the first. -/
theorem C6_validate_for_tools (cfg : StackConfig) (osEnv : List (String × String))
    (tools : List BaseTool) :
    (cfg.validate_for_tools osEnv tools = Except.ok () ↔
      ∀ t ∈ tools, ∀ kd ∈ t.required_env_vars,
        ¬(kd.2 = none ∧ alookup cfg.env_vars kd.1 = none ∧ alookup osEnv kd.1 = none)) ∧
    (∀ e, cfg.validate_for_tools osEnv tools = Except.error e →
      e.kind = ErrorKind.config ∧
      e.message = String.intercalate "\n" (envFailureLines cfg osEnv tools)) ∧
    (∀ t ∈ tools, ∀ kd ∈ t.required_env_vars,
      kd.2 = none → alookup cfg.env_vars kd.1 = none → alookup osEnv kd.1 = none →
      (t.className ++ ": MCPStack Error: Missing required env var: " ++ kd.1)
        ∈ envFailureLines cfg osEnv tools) := by
  refine ⟨?_, ?_, ?_⟩
  · unfold StackConfig.validate_for_tools
    rw [envFailureLines_eq]
    cases hl : allFailLines cfg osEnv tools with
    | nil =>
      simp only [List.isEmpty_nil, if_true]
      constructor
      · intro _ t ht kd hkd
        have hnil := (allFailLines_eq_nil_iff cfg osEnv tools).1 hl t ht
        have := (toolFailLines_eq_nil_iff cfg osEnv t.className t.required_env_vars).1 hnil
        exact this kd hkd
      · intro _
        trivial
    | cons l ls =>
      simp only [List.isEmpty_cons, if_false]
      constructor
      · intro h
        exact Except.noConfusion h
      · intro h
        exfalso
        have hnil : allFailLines cfg osEnv tools = [] := by
          rw [allFailLines_eq_nil_iff]
          intro t ht
          rw [toolFailLines_eq_nil_iff]
          exact h t ht
        rw [hl] at hnil
        exact List.noConfusion hnil
  · intro e he
    unfold StackConfig.validate_for_tools at he
    by_cases hl : (envFailureLines cfg osEnv tools).isEmpty
    · rw [if_pos hl] at he
      exact Except.noConfusion he
    · rw [if_neg hl] at he
      injection he with he2
      rw [← he2]
      exact ⟨rfl, rfl⟩
  · intro t ht kd hkd h1 h2 h3
    rw [envFailureLines_eq]
    exact mem_allFailLines cfg osEnv tools t ht kd hkd h1 h2 h3


/-- Witness for C6: with both tools missing their variables, validation
fails once with the aggregated two-line message, and each tool's line is
collected. -/
theorem C6_witness :
    StackConfig.validate_for_tools ⟨"INFO", []⟩ [] [toolMissA, toolMissB]
      = Except.error ⟨ErrorKind.config,
          "ToolA: MCPStack Error: Missing required env var: K1\nToolB: MCPStack Error: Missing required env var: K2",
          none⟩ ∧
    ("ToolA: MCPStack Error: Missing required env var: K1"
      ∈ envFailureLines ⟨"INFO", []⟩ [] [toolMissA, toolMissB]) ∧
    ("ToolB: MCPStack Error: Missing required env var: K2"
      ∈ envFailureLines ⟨"INFO", []⟩ [] [toolMissA, toolMissB]) := by
  refine ⟨by decide, ?_, ?_⟩
  · exact (C6_validate_for_tools ⟨"INFO", []⟩ [] [toolMissA, toolMissB]).2.2
      toolMissA (by decide) ("K1", none) (by decide) rfl rfl rfl
  · exact (C6_validate_for_tools ⟨"INFO", []⟩ [] [toolMissA, toolMissB]).2.2
      toolMissB (by decide) ("K2", none) (by decide) rfl rfl rfl


theorem prefKey_eq (pre k : String) : prefKey pre k = pre ++ k := by
  unfold prefKey
  by_cases h : pre = ""
  · rw [if_pos h, h, String.empty_append]
  · rw [if_neg h]

theorem merge_env_ok_preserves (pre : String) (m : List (String × String)) :
    ∀ (cfg env2 : StackConfig), StackConfig.merge_env cfg m pre = Except.ok env2 →
      env2.log_level = cfg.log_level ∧
      ∀ k', (∀ kv ∈ m, prefKey pre kv.1 ≠ k') →
        alookup env2.env_vars k' = alookup cfg.env_vars k' := by
  induction m with
  | nil =>
    intro cfg env2 h
    injection h with h
    subst h
    exact ⟨rfl, fun _ _ => rfl⟩
  | cons kv0 rest ih =>
    intro cfg env2 h
    obtain ⟨k, v⟩ := kv0
    have hstep : ∀ (cfg' : StackConfig),
        StackConfig.merge_env cfg' rest pre = Except.ok env2 →
        cfg'.env_vars = setVal cfg.env_vars (prefKey pre k) v →
        cfg'.log_level = cfg.log_level →
        env2.log_level = cfg.log_level ∧
        ∀ k', (∀ kv ∈ (k, v) :: rest, prefKey pre kv.1 ≠ k') →
          alookup env2.env_vars k' = alookup cfg.env_vars k' := by
      intro cfg' h' henv hlog
      obtain ⟨hlog2, hpres⟩ := ih cfg' env2 h'
      refine ⟨hlog2.trans hlog, ?_⟩
      intro k' hk'
      have hk0 : prefKey pre k ≠ k' := hk' (k, v) (List.mem_cons_self _ _)
      rw [hpres k' (fun kv hkv => hk' kv (List.mem_cons_of_mem _ hkv)), henv]
      exact alookup_setVal_ne cfg.env_vars (prefKey pre k) v k' (Ne.symm hk0)
    cases ha : alookup cfg.env_vars (prefKey pre k) with
    | some old =>
      by_cases hov : old ≠ v
      · simp only [StackConfig.merge_env, ha, if_pos hov] at h
        exact Except.noConfusion h
      · simp only [StackConfig.merge_env, ha, if_neg hov] at h
        exact hstep _ h rfl rfl
    | none =>
      simp only [StackConfig.merge_env, ha] at h
      exact hstep _ h rfl rfl

theorem merge_env_ok_lookup (pre : String) (m : List (String × String)) :
    ∀ (cfg env2 : StackConfig),
      (List.map (fun kv => prefKey pre kv.1) m).Nodup →
      StackConfig.merge_env cfg m pre = Except.ok env2 →
      ∀ kv ∈ m, alookup env2.env_vars (prefKey pre kv.1) = some kv.2 := by
  induction m with
  | nil =>
    intro cfg env2 _ _ kv hkv
    cases hkv
  | cons kv0 rest ih =>
    intro cfg env2 hnd h kv hkv
    obtain ⟨k, v⟩ := kv0
    have hnd' : (List.map (fun kv => prefKey pre kv.1) rest).Nodup := (List.nodup_cons.1 hnd).2
    have hnotin : prefKey pre k ∉ List.map (fun kv => prefKey pre kv.1) rest :=
      (List.nodup_cons.1 hnd).1
    have hstep : ∀ (cfg' : StackConfig),
        StackConfig.merge_env cfg' rest pre = Except.ok env2 →
        cfg'.env_vars = setVal cfg.env_vars (prefKey pre k) v →
        alookup env2.env_vars (prefKey pre kv.1) = some kv.2 := by
      intro cfg' h' henv
      rcases List.mem_cons.1 hkv with rfl | hmem
      · have hrest : ∀ kv2 ∈ rest, prefKey pre kv2.1 ≠ prefKey pre k := by
          intro kv2 hkv2 heq2
          exact hnotin (heq2 ▸ List.mem_map_of_mem (fun kv3 => prefKey pre kv3.1) hkv2)
        have hpres := (merge_env_ok_preserves pre rest cfg' env2 h').2
          (prefKey pre k) hrest
        show alookup env2.env_vars (prefKey pre k) = some v
        rw [hpres, henv]
        exact alookup_setVal_self cfg.env_vars (prefKey pre k) v
      · exact ih cfg' env2 hnd' h' kv hmem
    cases ha : alookup cfg.env_vars (prefKey pre k) with
    | some old =>
      by_cases hov : old ≠ v
      · simp only [StackConfig.merge_env, ha, if_pos hov] at h
        exact Except.noConfusion h
      · simp only [StackConfig.merge_env, ha, if_neg hov] at h
        exact hstep _ h rfl
    | none =>
      simp only [StackConfig.merge_env, ha] at h
      exact hstep _ h rfl

theorem merge_env_ok_of_no_conflict (pre : String) (m : List (String × String)) :
    ∀ (cfg : StackConfig),
      (List.map (fun kv => prefKey pre kv.1) m).Nodup →
      (∀ kv ∈ m, ∀ old, alookup cfg.env_vars (prefKey pre kv.1) = some old → old = kv.2) →
      ∃ env2, StackConfig.merge_env cfg m pre = Except.ok env2 := by
  induction m with
  | nil =>
    intro cfg _ _
    exact ⟨cfg, rfl⟩
  | cons kv0 rest ih =>
    intro cfg hnd hnc
    obtain ⟨k, v⟩ := kv0
    have hnd' : (List.map (fun kv => prefKey pre kv.1) rest).Nodup := (List.nodup_cons.1 hnd).2
    have hnotin : prefKey pre k ∉ List.map (fun kv => prefKey pre kv.1) rest :=
      (List.nodup_cons.1 hnd).1
    have hnc' : ∀ kv ∈ rest, ∀ old,
        alookup (setVal cfg.env_vars (prefKey pre k) v) (prefKey pre kv.1) = some old →
        old = kv.2 := by
      intro kv hkv old hold
      have hne : prefKey pre kv.1 ≠ prefKey pre k := by
        intro heq
        exact hnotin (heq ▸ List.mem_map_of_mem (fun kv3 => prefKey pre kv3.1) hkv)
      rw [alookup_setVal_ne cfg.env_vars (prefKey pre k) v (prefKey pre kv.1) hne] at hold
      exact hnc kv (List.mem_cons_of_mem _ hkv) old hold
    cases ha : alookup cfg.env_vars (prefKey pre k) with
    | some old =>
      have hove : old = v := hnc (k, v) (List.mem_cons_self _ _) old ha
      have hov : ¬old ≠ v := by simp [hove]
      obtain ⟨env2, h2⟩ := ih ⟨cfg.log_level, setVal cfg.env_vars (prefKey pre k) v⟩ hnd' hnc'
      refine ⟨env2, ?_⟩
      simp only [StackConfig.merge_env, ha, if_neg hov]
      exact h2
    | none =>
      obtain ⟨env2, h2⟩ := ih ⟨cfg.log_level, setVal cfg.env_vars (prefKey pre k) v⟩ hnd' hnc'
      refine ⟨env2, ?_⟩
      simp only [StackConfig.merge_env, ha]
      exact h2

theorem merge_env_self (pre : String) (m : List (String × String)) :
    ∀ (cfg : StackConfig),
      (∀ kv ∈ m, alookup cfg.env_vars (prefKey pre kv.1) = some kv.2) →
      StackConfig.merge_env cfg m pre = Except.ok cfg := by
  induction m with
  | nil =>
    intro cfg _
    rfl
  | cons kv0 rest ih =>
    intro cfg hall
    obtain ⟨k, v⟩ := kv0
    have ha : alookup cfg.env_vars (prefKey pre k) = some v :=
      hall (k, v) (List.mem_cons_self _ _)
    have hov : ¬v ≠ v := by simp
    have hset : setVal cfg.env_vars (prefKey pre k) v = cfg.env_vars :=
      setVal_id cfg.env_vars (prefKey pre k) v ha
    simp only [StackConfig.merge_env, ha, if_neg hov, hset]
    exact ih cfg (fun kv hkv => hall kv (List.mem_cons_of_mem _ hkv))

theorem merge_env_error_of_conflict (pre : String) (m : List (String × String)) :
    ∀ (cfg : StackConfig),
      (List.map (fun kv => prefKey pre kv.1) m).Nodup →
      ∀ k v, (k, v) ∈ m → ∀ old,
        alookup cfg.env_vars (prefKey pre k) = some old → old ≠ v →
      ∃ k2 v2 old2, (k2, v2) ∈ m ∧
        alookup cfg.env_vars (prefKey pre k2) = some old2 ∧ old2 ≠ v2 ∧
        StackConfig.merge_env cfg m pre = Except.error ⟨ErrorKind.config,
          "Env conflict: " ++ prefKey pre k2 ++ " (" ++ old2 ++ " vs " ++ v2 ++ ")", none⟩ := by
  induction m with
  | nil =>
    intro cfg _ k v hkv
    cases hkv
  | cons kv0 rest ih =>
    intro cfg hnd k v hkv old hold hne
    obtain ⟨k0, v0⟩ := kv0
    have hnd' : (List.map (fun kv => prefKey pre kv.1) rest).Nodup := (List.nodup_cons.1 hnd).2
    have hnotin : prefKey pre k0 ∉ List.map (fun kv => prefKey pre kv.1) rest :=
      (List.nodup_cons.1 hnd).1
    cases ha : alookup cfg.env_vars (prefKey pre k0) with
    | some old0 =>
      by_cases hov : old0 ≠ v0
      · exact ⟨k0, v0, old0, List.mem_cons_self _ _, ha, hov, by
          simp only [StackConfig.merge_env, ha, if_pos hov]⟩
      · push_neg at hov
        have hmem : (k, v) ∈ rest := by
          rcases List.mem_cons.1 hkv with heq | hmem
          · exfalso
            rw [Prod.ext_iff] at heq
            obtain ⟨hk, hv⟩ := heq
            have hk2 : k = k0 := hk
            have hv2 : v = v0 := hv
            rw [hk2] at hold
            rw [ha] at hold
            injection hold with h2
            exact hne (by rw [← h2, hov, ← hv2])
          · exact hmem
        have hpk : prefKey pre k ≠ prefKey pre k0 := by
          intro heq2
          exact hnotin (heq2 ▸ List.mem_map_of_mem (fun kv3 => prefKey pre kv3.1) hmem)
        have hold' : alookup (setVal cfg.env_vars (prefKey pre k0) v0) (prefKey pre k)
            = some old := by
          rw [alookup_setVal_ne cfg.env_vars (prefKey pre k0) v0 (prefKey pre k) hpk]
          exact hold
        obtain ⟨k2, v2, old2, hmem2, hlook2, hne2, herr⟩ :=
          ih ⟨cfg.log_level, setVal cfg.env_vars (prefKey pre k0) v0⟩ hnd' k v hmem old
            hold' hne
        have hpk2 : prefKey pre k2 ≠ prefKey pre k0 := by
          intro heq2
          exact hnotin (heq2 ▸ List.mem_map_of_mem (fun kv3 => prefKey pre kv3.1) hmem2)
        have hlook2' : alookup cfg.env_vars (prefKey pre k2) = some old2 := by
          rw [← alookup_setVal_ne cfg.env_vars (prefKey pre k0) v0 (prefKey pre k2) hpk2]
          exact hlook2
        refine ⟨k2, v2, old2, List.mem_cons_of_mem _ hmem2, hlook2', hne2, ?_⟩
        have hov2 : ¬old0 ≠ v0 := by simp [hov]
        simp only [StackConfig.merge_env, ha, if_neg hov2]
        exact herr
    | none =>
      have hmem : (k, v) ∈ rest := by
        rcases List.mem_cons.1 hkv with heq | hmem
        · exfalso
          rw [Prod.ext_iff] at heq
          obtain ⟨hk, hv⟩ := heq
          have hk2 : k = k0 := hk
          rw [hk2] at hold
          rw [ha] at hold
          exact Option.noConfusion hold
        · exact hmem
      have hpk : prefKey pre k ≠ prefKey pre k0 := by
        intro heq2
        exact hnotin (heq2 ▸ List.mem_map_of_mem (fun kv3 => prefKey pre kv3.1) hmem)
      have hold' : alookup (setVal cfg.env_vars (prefKey pre k0) v0) (prefKey pre k)
          = some old := by
        rw [alookup_setVal_ne cfg.env_vars (prefKey pre k0) v0 (prefKey pre k) hpk]
        exact hold
      obtain ⟨k2, v2, old2, hmem2, hlook2, hne2, herr⟩ :=
        ih ⟨cfg.log_level, setVal cfg.env_vars (prefKey pre k0) v0⟩ hnd' k v hmem old
          hold' hne
      have hpk2 : prefKey pre k2 ≠ prefKey pre k0 := by
        intro heq2
        exact hnotin (heq2 ▸ List.mem_map_of_mem (fun kv3 => prefKey pre kv3.1) hmem2)
      have hlook2' : alookup cfg.env_vars (prefKey pre k2) = some old2 := by
        rw [← alookup_setVal_ne cfg.env_vars (prefKey pre k0) v0 (prefKey pre k2) hpk2]
        exact hlook2
      refine ⟨k2, v2, old2, List.mem_cons_of_mem _ hmem2, hlook2', hne2, ?_⟩
      simp only [StackConfig.merge_env, ha]
      exact herr

/-- C8: for a map whose prefixed keys are distinct (Python dict entries):
`merge_env` succeeds exactly when no entry's prefixed key is already
present with a different value; on success every entry's prefixed key is
set to its value, untouched keys are preserved, and the merge is
idempotent — merging the same map again returns the same configuration;
and whenever any entry (first or later) conflicts, the merge fails with
the `ConfigError` naming a conflicting key's both values. -/
theorem C8_merge_env (cfg : StackConfig) (m : List (String × String)) (pre : String)
    (hnd : (List.map (fun kv => prefKey pre kv.1) m).Nodup) :
    ((∃ env2, cfg.merge_env m pre = Except.ok env2) ↔
      (∀ kv ∈ m, ∀ old, alookup cfg.env_vars (prefKey pre kv.1) = some old → old = kv.2)) ∧
    ((∀ kv ∈ m, ∀ old, alookup cfg.env_vars (prefKey pre kv.1) = some old → old = kv.2) →
      ∃ env2, cfg.merge_env m pre = Except.ok env2 ∧
        (∀ kv ∈ m, alookup env2.env_vars (prefKey pre kv.1) = some kv.2) ∧
        (∀ k', (∀ kv ∈ m, prefKey pre kv.1 ≠ k') →
          alookup env2.env_vars k' = alookup cfg.env_vars k')) ∧
    (∀ k v, (k, v) ∈ m → ∀ old,
      alookup cfg.env_vars (prefKey pre k) = some old → old ≠ v →
      ∃ k2 v2 old2, (k2, v2) ∈ m ∧
        alookup cfg.env_vars (prefKey pre k2) = some old2 ∧ old2 ≠ v2 ∧
        cfg.merge_env m pre = Except.error ⟨ErrorKind.config,
          "Env conflict: " ++ prefKey pre k2 ++ " (" ++ old2 ++ " vs " ++ v2 ++ ")", none⟩) ∧
    (∀ env2, cfg.merge_env m pre = Except.ok env2 →
      env2.merge_env m pre = Except.ok env2) := by
  refine ⟨⟨?_, ?_⟩, ?_, ?_, ?_⟩
  · rintro ⟨env2, h2⟩ kv hkv old hold
    by_contra hneq
    obtain ⟨k2, v2, old2, _, _, _, herr⟩ :=
      merge_env_error_of_conflict pre m cfg hnd kv.1 kv.2 hkv old hold hneq
    rw [h2] at herr
    exact Except.noConfusion herr
  · exact fun hnc => merge_env_ok_of_no_conflict pre m cfg hnd hnc
  · intro hnc
    obtain ⟨env2, h2⟩ := merge_env_ok_of_no_conflict pre m cfg hnd hnc
    exact ⟨env2, h2, merge_env_ok_lookup pre m cfg env2 hnd h2,
      fun k' hk' => (merge_env_ok_preserves pre m cfg env2 h2).2 k' hk'⟩
  · intro k v hkv old hold hne
    exact merge_env_error_of_conflict pre m cfg hnd k v hkv old hold hne
  · intro env2 h2
    exact merge_env_self pre m env2 (merge_env_ok_lookup pre m cfg env2 hnd h2)

/-- Witness for C8: the spec's concrete scenario (set, idempotent re-merge,
first-entry conflict) plus a conflict at the second entry of a two-entry
map, which still fails with the `ConfigError` naming both values. -/
theorem C8_witness :
    StackConfig.merge_env ⟨"INFO", []⟩ [("K", "a")] "" = Except.ok ⟨"INFO", [("K", "a")]⟩ ∧
    StackConfig.merge_env ⟨"INFO", [("K", "a")]⟩ [("K", "a")] ""
      = Except.ok ⟨"INFO", [("K", "a")]⟩ ∧
    StackConfig.merge_env ⟨"INFO", [("K", "a")]⟩ [("K", "b")] ""
      = Except.error ⟨ErrorKind.config, "Env conflict: K (a vs b)", none⟩ ∧
    StackConfig.merge_env ⟨"INFO", [("K", "a")]⟩ [("A", "x"), ("K", "b")] ""
      = Except.error ⟨ErrorKind.config, "Env conflict: K (a vs b)", none⟩ ∧
    (∃ k2 v2 old2, (k2, v2) ∈ [("A", "x"), ("K", "b")] ∧
      alookup [("K", "a")] (prefKey "" k2) = some old2 ∧ old2 ≠ v2 ∧
      StackConfig.merge_env ⟨"INFO", [("K", "a")]⟩ [("A", "x"), ("K", "b")] ""
        = Except.error ⟨ErrorKind.config,
            "Env conflict: " ++ prefKey "" k2 ++ " (" ++ old2 ++ " vs " ++ v2 ++ ")", none⟩) := by
  refine ⟨by decide, ?_, by decide, by decide, ?_⟩
  · exact (C8_merge_env ⟨"INFO", []⟩ [("K", "a")] "" (by decide)).2.2.2
      ⟨"INFO", [("K", "a")]⟩ (by decide)
  · exact (C8_merge_env ⟨"INFO", [("K", "a")]⟩ [("A", "x"), ("K", "b")] "" (by decide)).2.2.1
      "K" "b" (by decide) "a" (by decide) (by decide)

theorem loadTools_ok (registry : ToolRegistry) (tds : List ToolDoc) :
    ∀ (inst : MCPStackCore), inst._built = false →
      (∀ td ∈ tds, (alookup registry td.tool_type).isSome) →
      loadTools registry inst tds
        = Except.ok ⟨inst.config, inst.tools ++ rebuiltTools registry tds, inst.mcp, false⟩ := by
  induction tds with
  | nil =>
    intro inst hb _
    obtain ⟨c, t, m, b⟩ := inst
    simp only at hb
    subst hb
    simp [loadTools, rebuiltTools]
  | cons td rest ih =>
    intro inst hb hall
    obtain ⟨f, hf⟩ := Option.isSome_iff_exists.1 (hall td (List.mem_cons_self _ _))
    simp only [loadTools, hf]
    rw [ih (inst.with_tool (f td.params)) rfl
      (fun td2 h2 => hall td2 (List.mem_cons_of_mem _ h2))]
    simp [rebuiltTools, hf, MCPStackCore.with_tool, List.append_assoc]

theorem postLoadAll_ok (ts : List BaseTool) (h : ∀ t ∈ ts, t.initRaises = false) :
    postLoadAll ts = Except.ok () := by
  induction ts with
  | nil => rfl
  | cons t rest ih =>
    have ht : t.initRaises = false := h t (List.mem_cons_self t rest)
    simp only [postLoadAll, postLoadTool, initTool, ht, Bool.false_eq_true, if_false]
    exact ih (fun t' ht' => h t' (List.mem_cons_of_mem t ht'))

theorem rebuilt_props (registry : ToolRegistry) (ts : List BaseTool)
    (hrt : ∀ t ∈ ts, ∃ f, alookup registry (to_snake_case t.className) = some f ∧
      (f t.params).className = t.className ∧ (f t.params).params = t.params ∧
      (f t.params).initRaises = false) :
    (∀ td ∈ ts.map (fun t => (⟨to_snake_case t.className, t.params⟩ : ToolDoc)),
      (alookup registry td.tool_type).isSome) ∧
    (rebuiltTools registry
        (ts.map (fun t => ⟨to_snake_case t.className, t.params⟩))).map (fun t => t.className)
      = ts.map (fun t => t.className) ∧
    (rebuiltTools registry
        (ts.map (fun t => ⟨to_snake_case t.className, t.params⟩))).map (fun t => t.params)
      = ts.map (fun t => t.params) ∧
    (rebuiltTools registry
        (ts.map (fun t => ⟨to_snake_case t.className, t.params⟩))).length = ts.length ∧
    (∀ t' ∈ rebuiltTools registry
        (ts.map (fun t => ⟨to_snake_case t.className, t.params⟩)), t'.initRaises = false) := by
  induction ts with
  | nil => simp [rebuiltTools]
  | cons t rest ih =>
    obtain ⟨f, hf, h1, h2, h3⟩ := hrt t (List.mem_cons_self _ _)
    obtain ⟨ia, ib, ic, id, ie⟩ := ih (fun t' ht' => hrt t' (List.mem_cons_of_mem _ ht'))
    refine ⟨?_, ?_, ?_, ?_, ?_⟩
    · intro td htd
      rcases List.mem_cons.1 htd with rfl | hmem
      · simp [hf]
      · exact ia td hmem
    · simp only [List.map_cons, rebuiltTools, hf, ib, h1]
    · simp only [List.map_cons, rebuiltTools, hf, ic, h2]
    · simp only [List.map_cons, rebuiltTools, hf, List.length_cons, id]
    · intro t' ht'
      simp only [List.map_cons, rebuiltTools, hf] at ht'
      rcases List.mem_cons.1 ht' with rfl | hmem
      · exact h3
      · exact ie t' hmem

theorem load_ok (registry : ToolRegistry) (doc : PipelineDoc)
    (ha : ∀ td ∈ doc.tools, (alookup registry td.tool_type).isSome)
    (hinit : ∀ t' ∈ rebuiltTools registry doc.tools, t'.initRaises = false) :
    MCPStackCore.load registry doc
      = Except.ok ⟨⟨doc.config.log_level, doc.config.env_vars⟩,
          rebuiltTools registry doc.tools, none, true⟩ := by
  have hlt := loadTools_ok registry doc.tools
    ⟨⟨doc.config.log_level, doc.config.env_vars⟩, [], none, false⟩ rfl ha
  have hpl := postLoadAll_ok (rebuiltTools registry doc.tools) hinit
  simp [MCPStackCore.load, hlt, hpl]

/-- C3: saving a built pipeline and loading the document back yields a
pipeline with the same tool count, the same (snake-cased) tool type
identifiers in the document, the same class names and parameter payloads
in the same order, already in the built state with no `build()` call — and
`load` performs no environment-variable validation: its success is
asserted with no hypothesis about any environment, even one in which
`validate_for_tools` fails on the reloaded tools.  The hypotheses are the
tool-contract round-trip invariant: each tool's registry factory at its
snake-cased identifier rebuilds its class name and payload, and its
post-load initialization does not raise. -/
theorem C3_save_load_roundtrip (p : MCPStackCore) (registry : ToolRegistry)
    (hb : p._built = true)
    (hrt : ∀ t ∈ p.tools, ∃ f, alookup registry (to_snake_case t.className) = some f ∧
      (f t.params).className = t.className ∧ (f t.params).params = t.params ∧
      (f t.params).initRaises = false) :
    ∃ doc q, p.save = Except.ok doc ∧ MCPStackCore.load registry doc = Except.ok q ∧
      doc.tools.map (fun td => td.tool_type) = p.tools.map (fun t => to_snake_case t.className) ∧
      q.tools.length = p.tools.length ∧
      q.tools.map (fun t => t.className) = p.tools.map (fun t => t.className) ∧
      q.tools.map (fun t => t.params) = p.tools.map (fun t => t.params) ∧
      q._built = true ∧
      (∀ osEnv e, q.config.validate_for_tools osEnv q.tools = Except.error e →
        MCPStackCore.load registry doc = Except.ok q) := by
  obtain ⟨ha, hcn, hpar, hlen, hinit⟩ := rebuilt_props registry p.tools hrt
  refine ⟨⟨⟨p.config.log_level, p.config.env_vars⟩,
      p.tools.map (fun t => ⟨to_snake_case t.className, t.params⟩)⟩,
    ⟨⟨p.config.log_level, p.config.env_vars⟩,
      rebuiltTools registry (p.tools.map (fun t => ⟨to_snake_case t.className, t.params⟩)),
      none, true⟩, ?_, ?_, ?_, ?_, ?_, ?_, rfl, ?_⟩
  case _ =>
    unfold MCPStackCore.save
    rw [hb]
    rfl
  case _ =>
    exact load_ok registry
      ⟨⟨p.config.log_level, p.config.env_vars⟩,
        p.tools.map (fun t => ⟨to_snake_case t.className, t.params⟩)⟩ ha hinit
  case _ =>
    rw [List.map_map]
    rfl
  case _ => exact hlen
  case _ => exact hcn
  case _ => exact hpar
  case _ =>
    intro osEnv e _
    exact load_ok registry
      ⟨⟨p.config.log_level, p.config.env_vars⟩,
        p.tools.map (fun t => ⟨to_snake_case t.className, t.params⟩)⟩ ha hinit

/-- Witness for C3 at the concrete one-tool pipeline. -/
theorem C3_witness :
    builtRT._built = true ∧
    (∃ doc q, builtRT.save = Except.ok doc ∧
      MCPStackCore.load registryRT doc = Except.ok q ∧
      doc.tools.map (fun td => td.tool_type)
        = builtRT.tools.map (fun t => to_snake_case t.className) ∧
      q.tools.length = builtRT.tools.length ∧
      q.tools.map (fun t => t.className) = builtRT.tools.map (fun t => t.className) ∧
      q.tools.map (fun t => t.params) = builtRT.tools.map (fun t => t.params) ∧
      q._built = true ∧
      (∀ osEnv e, q.config.validate_for_tools osEnv q.tools = Except.error e →
        MCPStackCore.load registryRT doc = Except.ok q)) := by
  refine ⟨rfl, C3_save_load_roundtrip builtRT registryRT rfl ?_⟩
  intro t ht
  simp only [builtRT, List.mem_singleton] at ht
  subst ht
  exact ⟨fun ps => ⟨"HelloWorld", ps, [("API_KEY", none)], [], ["say_hello"], false⟩,
    rfl, rfl, rfl, rfl⟩
